import Mathlib

/-!
Verification of the dicom-listener monitor (`dicom_monitor.py`).

The Python program is shallowly embedded as executable Lean definitions:

* `normalize_string` — the string canonicalizer used for rule matching
  (`re.sub(r"[^a-zA-Z0-9]", "", s).lower()`);
* `send_to_api`, `handle_dicom_file`, `process_files` — the routing and
  delivery pipeline of `DicomFileHandler`, with the external capabilities
  (pydicom metadata extraction, HTTP POST) modelled as explicit function
  parameters returning `Except`;
* `is_file_stable`, `on_modified`, `drain_cycle`, `run_events` — the
  stability detector and the shared-set hand-off between the watchdog event
  thread and the periodic drain thread; the lock makes each handler call and
  each drain atomic, so interleavings are modelled as sequences of atomic
  events;
* `delete_old_files_pass`, `delete_file` — the retention sweeper
  (`DicomFileDeleter`) over an explicit directory-listing model.

Python's `[a-zA-Z0-9]` character class is exactly `Char.isAlphanum`, and
`str.lower` restricted to ASCII is `Char.toLower` mapped over the string,
which suffices here because matching and lowering only ever see ASCII data
where the claims are concerned.
-/

namespace DicomMonitor

/-- Arithmetic facts about `Char.ofNat` on small codepoints: below the
surrogate range the constructed character has exactly the requested
codepoint. -/
theorem char_toNat_ofNat_of_lt {n : Nat} (h : n < 55296) : (Char.ofNat n).toNat = n := by
  rw [Char.ofNat, dif_pos (Or.inl h)]
  rfl

/-- Bridge from `UInt32` order on `Char.val` to `Nat` order on `Char.toNat`. -/
theorem char_val_le_iff (c : Char) (m : Nat) (hm : m < 4294967296) :
    (c.val ≤ UInt32.ofNat m) ↔ c.toNat ≤ m := by
  rw [UInt32.le_def, BitVec.le_def]
  simp [Char.toNat, UInt32.toNat, UInt32.toBitVec_eq_of_lt hm]

/-- Bridge from `UInt32` order on `Char.val` to `Nat` order, lower bound. -/
theorem char_val_ge_iff (c : Char) (m : Nat) (hm : m < 4294967296) :
    (UInt32.ofNat m ≤ c.val) ↔ m ≤ c.toNat := by
  rw [UInt32.le_def, BitVec.le_def]
  simp [Char.toNat, UInt32.toNat, UInt32.toBitVec_eq_of_lt hm]

/-- Characterization of the regex class `[a-zA-Z0-9]` (= `Char.isAlphanum`)
by codepoint ranges. -/
theorem isAlphanum_iff (c : Char) : c.isAlphanum = true ↔
    (65 ≤ c.toNat ∧ c.toNat ≤ 90) ∨ (97 ≤ c.toNat ∧ c.toNat ≤ 122) ∨
    (48 ≤ c.toNat ∧ c.toNat ≤ 57) := by
  have h65 : (65 : UInt32) = UInt32.ofNat 65 := rfl
  have h90 : (90 : UInt32) = UInt32.ofNat 90 := rfl
  have h97 : (97 : UInt32) = UInt32.ofNat 97 := rfl
  have h122 : (122 : UInt32) = UInt32.ofNat 122 := rfl
  have h48 : (48 : UInt32) = UInt32.ofNat 48 := rfl
  have h57 : (57 : UInt32) = UInt32.ofNat 57 := rfl
  simp only [Char.isAlphanum, Char.isAlpha, Char.isUpper, Char.isLower, Char.isDigit,
    Bool.or_eq_true, Bool.and_eq_true, decide_eq_true_eq, ge_iff_le,
    h65, h90, h97, h122, h48, h57]
  rw [char_val_ge_iff c 65 (by decide), char_val_le_iff c 90 (by decide),
    char_val_ge_iff c 97 (by decide), char_val_le_iff c 122 (by decide),
    char_val_ge_iff c 48 (by decide), char_val_le_iff c 57 (by decide)]
  tauto

/-- On an uppercase ASCII letter, `Char.toLower` adds 32 to the codepoint. -/
theorem toLower_eq_of_upper (c : Char) (h : 65 ≤ c.toNat ∧ c.toNat ≤ 90) :
    Char.toLower c = Char.ofNat (c.toNat + 32) := by
  rw [Char.toLower, if_pos h]

/-- Outside the uppercase ASCII range, `Char.toLower` is the identity. -/
theorem toLower_eq_self (c : Char) (h : ¬ (65 ≤ c.toNat ∧ c.toNat ≤ 90)) :
    Char.toLower c = c := by
  rw [Char.toLower, if_neg h]

/-- Lowercasing preserves membership in `[a-zA-Z0-9]`. -/
theorem toLower_isAlphanum (c : Char) (h : c.isAlphanum = true) :
    (Char.toLower c).isAlphanum = true := by
  rw [isAlphanum_iff] at h ⊢
  by_cases hu : 65 ≤ c.toNat ∧ c.toNat ≤ 90
  · rw [toLower_eq_of_upper c hu, char_toNat_ofNat_of_lt (by omega)]
    omega
  · rw [toLower_eq_self c hu]
    exact h

/-- `Char.toLower` is idempotent. -/
theorem toLower_toLower (c : Char) : Char.toLower (Char.toLower c) = Char.toLower c := by
  by_cases hu : 65 ≤ c.toNat ∧ c.toNat ≤ 90
  · rw [toLower_eq_of_upper c hu]
    apply toLower_eq_self
    rw [char_toNat_ofNat_of_lt (by omega)]
    omega
  · rw [toLower_eq_self c hu, toLower_eq_self c hu]

/-- Embedding of `normalize_string` (dicom_monitor.py, lines 29-31):
`re.sub(r"[^a-zA-Z0-9]", "", s).lower()` — drop every character outside
`[a-zA-Z0-9]`, then lowercase the remainder. -/
def normalize_string (s : String) : String :=
  String.mk ((s.data.filter Char.isAlphanum).map Char.toLower)

/-- List-level form of one `normalize_string` pass. -/
def normalizeChars (l : List Char) : List Char :=
  (l.filter Char.isAlphanum).map Char.toLower

theorem normalize_string_data (s : String) :
    (normalize_string s).data = normalizeChars s.data := rfl

/-- One normalization pass absorbs a second one, at the list level. -/
theorem normalizeChars_idem (l : List Char) :
    normalizeChars (normalizeChars l) = normalizeChars l := by
  unfold normalizeChars
  rw [List.filter_eq_self.2, List.map_map]
  · exact List.map_congr_left (fun c _ => toLower_toLower c)
  · intro c hc
    rcases List.mem_map.1 hc with ⟨d, hd, rfl⟩
    exact toLower_isAlphanum d (List.of_mem_filter hd)

/-- One routing rule, as loaded from the settings JSON (keys `watch_dir`,
`study_description`, `api_endpoint`). -/
structure RoutingConfig where
  watch_dir : String
  study_description : String
  api_endpoint : String
deriving DecidableEq

/-- The observable result of one `send_to_api` call: which file was posted to
which endpoint, and whether the success branch was taken. -/
structure DeliveryOutcome where
  path : String
  endpoint : String
  succeeded : Bool
deriving DecidableEq

/-- Embedding of `DicomFileHandler.send_to_api` (lines 89-100). The HTTP POST
is the external parameter `post`, returning the status code or a transport
error. Success is logged exactly when the status code is 200; any other
status or a raised exception is logged as a failure; either way the function
returns normally — one attempt, no retry. -/
def send_to_api (post : String → String → Except Unit Nat)
    (file_path api_endpoint : String) : DeliveryOutcome :=
  { path := file_path
    endpoint := api_endpoint
    succeeded :=
      match post file_path api_endpoint with
      | Except.ok status_code => status_code == 200
      | Except.error _ => false }

/-- The `for config in self.configs` loop of `handle_dicom_file`
(lines 82-85): for each config in declaration order, if the normalized
study description matches the normalized config pattern, call `send_to_api`
with that config's endpoint. -/
def dispatch_rules (post : String → String → Except Unit Nat)
    (file_path norm_study_description : String) :
    List RoutingConfig → List DeliveryOutcome
  | [] => []
  | config :: rest =>
    if normalize_string config.study_description == norm_study_description then
      send_to_api post file_path config.api_endpoint ::
        dispatch_rules post file_path norm_study_description rest
    else
      dispatch_rules post file_path norm_study_description rest

/-- Embedding of `DicomFileHandler.handle_dicom_file` (lines 77-87).
`extract` models `pydicom.dcmread` + `getattr(ds, 'StudyDescription', '')`:
`Except.error` is a raised exception (caught: the path is logged and
skipped), `Except.ok none` is a readable file with the StudyDescription
attribute absent (getattr default `''`). -/
def handle_dicom_file (configs : List RoutingConfig)
    (extract : String → Except Unit (Option String))
    (post : String → String → Except Unit Nat) (file_path : String) :
    List DeliveryOutcome :=
  match extract file_path with
  | Except.error _ => []
  | Except.ok sd =>
      dispatch_rules post file_path (normalize_string (sd.getD "")) configs

/-- The `for file_path in files_to_process` loop of
`process_files_periodically` (lines 59-60): handle each drained file in
turn; `handle_dicom_file` never raises, so every file is reached. -/
def process_files (configs : List RoutingConfig)
    (extract : String → Except Unit (Option String))
    (post : String → String → Except Unit Nat) :
    List String → List DeliveryOutcome
  | [] => []
  | file_path :: rest =>
      handle_dicom_file configs extract post file_path ++
        process_files configs extract post rest

/-- The dispatch loop visits exactly the configs whose normalized pattern
matches, in declaration order. -/
theorem dispatch_rules_eq_filter_map (post : String → String → Except Unit Nat)
    (file_path n : String) (configs : List RoutingConfig) :
    dispatch_rules post file_path n configs =
      (configs.filter
          (fun c => normalize_string c.study_description == n)).map
        (fun c => send_to_api post file_path c.api_endpoint) := by
  induction configs with
  | nil => rfl
  | cons c rest ih =>
    rw [dispatch_rules, List.filter_cons]
    by_cases h : (normalize_string c.study_description == n) = true
    · rw [if_pos h, if_pos h, List.map_cons, ih]
    · rw [if_neg h, if_neg h, ih]

/-- C6: `normalize_string` is idempotent, and case/punctuation-insensitive on
the spec's example pair. -/
theorem normalize_idempotent_and_insensitive :
    (∀ s : String, normalize_string (normalize_string s) = normalize_string s) ∧
    normalize_string "Chest X-Ray!" = normalize_string "chest x ray" := by
  constructor
  · intro s
    calc normalize_string (normalize_string s)
        = String.mk (normalizeChars (normalizeChars s.data)) := rfl
      _ = String.mk (normalizeChars s.data) := by rw [normalizeChars_idem]
      _ = normalize_string s := rfl
  · decide

/-- C4: a delivery attempt succeeds exactly when the HTTP response status is
200; a transport error or any other status is a failure; the attempt's
recorded path and endpoint are the ones given. -/
theorem delivery_success_iff_status_200
    (post : String → String → Except Unit Nat) (p e : String) :
    ((send_to_api post p e).succeeded = true ↔ post p e = Except.ok 200) ∧
    (send_to_api post p e).path = p ∧ (send_to_api post p e).endpoint = e := by
  refine ⟨?_, rfl, rfl⟩
  cases hpe : post p e with
  | ok status_code => simp [send_to_api, hpe]
  | error err => simp [send_to_api, hpe]

/-- C1: for every rule whose normalized pattern equals the file's normalized
classification, a delivery attempt to that rule's endpoint occurs; the
attempts follow the rule set's declaration order (the filtered config list);
and the attempted endpoints are independent of which directory the file
resides in (any path with the same extracted metadata yields the same
endpoint sequence — `watch_dir` is never consulted). -/
theorem routing_matches_all_rules_in_order
    (configs : List RoutingConfig) (extract : String → Except Unit (Option String))
    (post : String → String → Except Unit Nat) (file_path : String)
    (sd : Option String) (r : RoutingConfig)
    (hex : extract file_path = Except.ok sd)
    (hr : r ∈ configs)
    (hmatch : normalize_string r.study_description = normalize_string (sd.getD "")) :
    (∃ o ∈ handle_dicom_file configs extract post file_path,
        o.endpoint = r.api_endpoint ∧ o.path = file_path) ∧
    (handle_dicom_file configs extract post file_path).map DeliveryOutcome.endpoint =
      (configs.filter (fun c =>
          normalize_string c.study_description == normalize_string (sd.getD ""))).map
        RoutingConfig.api_endpoint ∧
    ∀ p' : String, extract p' = Except.ok sd →
      (handle_dicom_file configs extract post p').map DeliveryOutcome.endpoint =
        (handle_dicom_file configs extract post file_path).map DeliveryOutcome.endpoint := by
  have hhandle : handle_dicom_file configs extract post file_path =
      dispatch_rules post file_path (normalize_string (sd.getD "")) configs := by
    unfold handle_dicom_file
    rw [hex]
  refine ⟨?_, ?_, ?_⟩
  · refine ⟨send_to_api post file_path r.api_endpoint, ?_, rfl, rfl⟩
    rw [hhandle, dispatch_rules_eq_filter_map]
    exact List.mem_map_of_mem _ (List.mem_filter.2 ⟨hr, by simp [hmatch]⟩)
  · rw [hhandle, dispatch_rules_eq_filter_map, List.map_map]
    rfl
  · intro p' hex'
    have h2 : handle_dicom_file configs extract post p' =
        dispatch_rules post p' (normalize_string (sd.getD "")) configs := by
      unfold handle_dicom_file
      rw [hex']
    rw [h2, hhandle, dispatch_rules_eq_filter_map, dispatch_rules_eq_filter_map,
      List.map_map, List.map_map]
    rfl

/-- Witness for C1 at a concrete rule set and file: the rule for
"Chest X-Ray" routes a file with classification "chest   x-ray" living in a
directory other than the rule's `watch_dir`. -/
theorem routing_matches_all_rules_in_order_witness :
    (∃ o ∈ handle_dicom_file [⟨"/d", "Chest X-Ray", "http://h/a"⟩]
        (fun _ => Except.ok (some "chest   x-ray")) (fun _ _ => Except.ok 200)
        "/other/sub/1.dcm",
        o.endpoint = "http://h/a" ∧ o.path = "/other/sub/1.dcm") ∧
    (handle_dicom_file [⟨"/d", "Chest X-Ray", "http://h/a"⟩]
        (fun _ => Except.ok (some "chest   x-ray")) (fun _ _ => Except.ok 200)
        "/other/sub/1.dcm").map DeliveryOutcome.endpoint =
      (([⟨"/d", "Chest X-Ray", "http://h/a"⟩] : List RoutingConfig).filter (fun c =>
          normalize_string c.study_description ==
            normalize_string ((some "chest   x-ray").getD ""))).map
        RoutingConfig.api_endpoint ∧
    ∀ p' : String, (fun (_ : String) => Except.ok (ε := Unit) (some "chest   x-ray")) p' =
        Except.ok (some "chest   x-ray") →
      (handle_dicom_file [⟨"/d", "Chest X-Ray", "http://h/a"⟩]
          (fun _ => Except.ok (some "chest   x-ray")) (fun _ _ => Except.ok 200)
          p').map DeliveryOutcome.endpoint =
        (handle_dicom_file [⟨"/d", "Chest X-Ray", "http://h/a"⟩]
            (fun _ => Except.ok (some "chest   x-ray")) (fun _ _ => Except.ok 200)
            "/other/sub/1.dcm").map DeliveryOutcome.endpoint :=
  routing_matches_all_rules_in_order
    [⟨"/d", "Chest X-Ray", "http://h/a"⟩]
    (fun _ => Except.ok (some "chest   x-ray")) (fun _ _ => Except.ok 200)
    "/other/sub/1.dcm" (some "chest   x-ray") ⟨"/d", "Chest X-Ray", "http://h/a"⟩
    rfl (by decide) (by decide)

/-- C7: per-file and per-dispatch errors are isolated. A path whose metadata
extraction raises is skipped and the rest of the drain cycle is processed as
if it were absent; and the sequence of attempted (path, endpoint) pairs in a
cycle is the same whatever the delivery results are — a failed POST cancels
nothing. -/
theorem per_file_and_per_dispatch_error_isolation
    (configs : List RoutingConfig) (extract : String → Except Unit (Option String))
    (post post' : String → String → Except Unit Nat)
    (xs ys : List String) (p : String)
    (hfail : extract p = Except.error ()) :
    process_files configs extract post (xs ++ p :: ys) =
      process_files configs extract post (xs ++ ys) ∧
    ∀ paths : List String,
      (process_files configs extract post paths).map (fun o => (o.path, o.endpoint)) =
        (process_files configs extract post' paths).map (fun o => (o.path, o.endpoint)) := by
  have hskip : handle_dicom_file configs extract post p = [] := by
    unfold handle_dicom_file
    rw [hfail]
  constructor
  · induction xs with
    | nil => simp [process_files, hskip]
    | cons x xs ih =>
      show handle_dicom_file configs extract post x ++
            process_files configs extract post (xs ++ p :: ys) =
          handle_dicom_file configs extract post x ++
            process_files configs extract post (xs ++ ys)
      rw [ih]
  · intro paths
    induction paths with
    | nil => rfl
    | cons q rest ih =>
      rw [process_files, process_files, List.map_append, List.map_append, ih]
      congr 1
      unfold handle_dicom_file
      cases hq : extract q with
      | error e => rfl
      | ok sd =>
        show (dispatch_rules post q (normalize_string (sd.getD "")) configs).map
              (fun o => (o.path, o.endpoint)) =
            (dispatch_rules post' q (normalize_string (sd.getD "")) configs).map
              (fun o => (o.path, o.endpoint))
        rw [dispatch_rules_eq_filter_map, dispatch_rules_eq_filter_map,
          List.map_map, List.map_map]
        rfl

/-- Witness for C7: with extraction failing on "bad" only and every POST
failing under `post`, the cycle ["f1", "bad", "f2"] equals the cycle
["f1", "f2"], and the attempted pairs match those under an always-200
`post'`. -/
theorem per_file_and_per_dispatch_error_isolation_witness :
    process_files [⟨"/d", "A", "e1"⟩]
        (fun q => if q == "bad" then Except.error () else Except.ok (some "A"))
        (fun _ _ => Except.error ()) (["f1"] ++ "bad" :: ["f2"]) =
      process_files [⟨"/d", "A", "e1"⟩]
        (fun q => if q == "bad" then Except.error () else Except.ok (some "A"))
        (fun _ _ => Except.error ()) (["f1"] ++ ["f2"]) ∧
    (process_files [⟨"/d", "A", "e1"⟩]
        (fun q => if q == "bad" then Except.error () else Except.ok (some "A"))
        (fun _ _ => Except.error ()) ["f1", "f2"]).map (fun o => (o.path, o.endpoint)) =
      (process_files [⟨"/d", "A", "e1"⟩]
          (fun q => if q == "bad" then Except.error () else Except.ok (some "A"))
          (fun _ _ => Except.ok 200) ["f1", "f2"]).map (fun o => (o.path, o.endpoint)) :=
  ⟨(per_file_and_per_dispatch_error_isolation [⟨"/d", "A", "e1"⟩]
      (fun q => if q == "bad" then Except.error () else Except.ok (some "A"))
      (fun _ _ => Except.error ()) (fun _ _ => Except.ok 200)
      ["f1"] ["f2"] "bad" rfl).1,
   (per_file_and_per_dispatch_error_isolation [⟨"/d", "A", "e1"⟩]
      (fun q => if q == "bad" then Except.error () else Except.ok (some "A"))
      (fun _ _ => Except.error ()) (fun _ _ => Except.ok 200)
      ["f1"] ["f2"] "bad" rfl).2 ["f1", "f2"]⟩

/-- C10: when metadata extraction succeeds but the classification attribute
is absent, the default is the empty string; the endpoints attempted are
exactly those of the rules whose pattern normalizes to the empty string; a
string normalizes to the empty string exactly when it contains no ASCII
alphanumeric character; and the empty string normalizes to itself. -/
theorem absent_classification_empty_key_routing
    (configs : List RoutingConfig) (extract : String → Except Unit (Option String))
    (post : String → String → Except Unit Nat) (p : String)
    (habs : extract p = Except.ok none) :
    ((handle_dicom_file configs extract post p).map DeliveryOutcome.endpoint =
      (configs.filter (fun c => normalize_string c.study_description == "")).map
        RoutingConfig.api_endpoint) ∧
    (∀ s : String, normalize_string s = "" ↔ ∀ c ∈ s.data, c.isAlphanum = false) ∧
    normalize_string "" = "" := by
  refine ⟨?_, ?_, rfl⟩
  · have h : handle_dicom_file configs extract post p =
        dispatch_rules post p (normalize_string "") configs := by
      unfold handle_dicom_file
      rw [habs]
      rfl
    have hempty : normalize_string "" = "" := rfl
    rw [h, hempty, dispatch_rules_eq_filter_map, List.map_map]
    rfl
  · intro s
    constructor
    · intro h c hc
      have hdata : normalizeChars s.data = [] := by
        have hd := congrArg String.data h
        rw [normalize_string_data] at hd
        simpa using hd
      unfold normalizeChars at hdata
      rw [List.map_eq_nil_iff] at hdata
      have := (List.filter_eq_nil_iff.1 hdata) c hc
      simpa using this
    · intro h
      have hf : s.data.filter Char.isAlphanum = [] :=
        List.filter_eq_nil_iff.2 (fun c hc => by simp [h c hc])
      calc normalize_string s
          = String.mk ((s.data.filter Char.isAlphanum).map Char.toLower) := rfl
        _ = String.mk ([].map Char.toLower) := by rw [hf]
        _ = "" := rfl

/-- Witness for C10: a rule set with a punctuation-only pattern "!!!" and an
alphabetic pattern "Chest"; with the classification attribute absent, the
punctuation-only rule is attempted and the other is not. -/
theorem absent_classification_empty_key_routing_witness :
    ((handle_dicom_file [⟨"/d", "!!!", "e1"⟩, ⟨"/d", "Chest", "e2"⟩]
        (fun _ => Except.ok none) (fun _ _ => Except.ok 200) "/d/f.dcm").map
          DeliveryOutcome.endpoint =
      (([⟨"/d", "!!!", "e1"⟩, ⟨"/d", "Chest", "e2"⟩] : List RoutingConfig).filter
          (fun c => normalize_string c.study_description == "")).map
        RoutingConfig.api_endpoint) ∧
    (∀ s : String, normalize_string s = "" ↔ ∀ c ∈ s.data, c.isAlphanum = false) ∧
    normalize_string "" = "" :=
  absent_classification_empty_key_routing
    [⟨"/d", "!!!", "e1"⟩, ⟨"/d", "Chest", "e2"⟩]
    (fun _ => Except.ok none) (fun _ _ => Except.ok 200) "/d/f.dcm" rfl

/-- ASCII lowering of a whole string, as `str.lower()` behaves on the ASCII
range (the only range the extension checks compare against). -/
def asciiLower (s : String) : String := String.mk (s.data.map Char.toLower)

/-- The extension filter used by both the watcher (line 48) and the sweeper
(line 122): `name.lower().endswith(".dcm")`. -/
def matches_dcm (file_name : String) : Bool :=
  ".dcm".data.isSuffixOf (asciiLower file_name).data

/-- A file seen while walking a watched tree: its basename (what the
extension check reads) and its `os.path.getmtime` in seconds. -/
structure SweptFile where
  file_name : String
  modified_time : Int
deriving DecidableEq

/-- One sweep tick of `DicomFileDeleter.delete_old_files` (lines 119-130)
over the walked files: a file with the `.dcm` extension (case-insensitive)
is deleted exactly when `now - modified_time > timedelta(days=max_age_days)`
— that is, strictly more than `max_age_days * 86400` seconds. Returns the
deleted files. -/
def delete_old_files_pass (now max_age_days : Int) (files : List SweptFile) :
    List SweptFile :=
  files.filter (fun f =>
    matches_dcm f.file_name && decide (now - f.modified_time > max_age_days * 86400))

/-- C3: on a sweep tick, a matching file is deleted iff its age strictly
exceeds the threshold; at age exactly equal to the threshold it is
retained. -/
theorem sweep_deletes_strictly_older_files
    (now max_age_days : Int) (files : List SweptFile) (f : SweptFile)
    (hf : f ∈ files) (hext : matches_dcm f.file_name = true) :
    (f ∈ delete_old_files_pass now max_age_days files ↔
      now - f.modified_time > max_age_days * 86400) ∧
    (now - f.modified_time = max_age_days * 86400 →
      f ∉ delete_old_files_pass now max_age_days files) := by
  have hiff : f ∈ delete_old_files_pass now max_age_days files ↔
      now - f.modified_time > max_age_days * 86400 := by
    rw [delete_old_files_pass, List.mem_filter]
    simp [hf, hext]
  refine ⟨hiff, fun heq hmem => ?_⟩
  rw [hiff] at hmem
  omega

/-- Witness for C3: with `max_age_days = 14`, a 40-day-old "old.DCM" is
deleted and a file aged exactly 14 days would be retained. -/
theorem sweep_deletes_strictly_older_files_witness :
    ((⟨"old.DCM", 0⟩ : SweptFile) ∈
        delete_old_files_pass (40 * 86400) 14 [⟨"old.DCM", 0⟩] ↔
      (40 * 86400 : Int) - 0 > 14 * 86400) ∧
    ((40 * 86400 : Int) - 0 = 14 * 86400 →
      (⟨"old.DCM", 0⟩ : SweptFile) ∉
        delete_old_files_pass (40 * 86400) 14 [⟨"old.DCM", 0⟩]) :=
  sweep_deletes_strictly_older_files (40 * 86400) 14 [⟨"old.DCM", 0⟩]
    ⟨"old.DCM", 0⟩ (by decide) (by decide)

/-- Paths are component lists, `dirname` drops the basename
(`os.path.dirname`). -/
def dirname (p : List String) : List String := p.dropLast

/-- The slice of the filesystem `delete_file` touches: the regular files and
the directories currently present, each named by its component path. -/
structure FileSystem where
  files : List (List String)
  dirs : List (List String)
deriving DecidableEq

/-- Model of `os.listdir d`: the entries — files or subdirectories, any
extension — whose immediate parent is `d`. -/
def listdir (fs : FileSystem) (d : List String) : List (List String) :=
  fs.files.filter (fun f => dirname f == d) ++
    fs.dirs.filter (fun sub => dirname sub == d)

/-- Embedding of `DicomFileDeleter.delete_file` (lines 136-147): remove the
file; if the parent directory's listing is then empty, remove the parent
directory — that one level only, nothing above it is ever touched.
(`os.remove` of a missing path raises, the handler catches, and the rmdir is
never reached, so a missing path leaves the filesystem unchanged.) -/
def delete_file (fs : FileSystem) (file_path : List String) : FileSystem :=
  if file_path ∈ fs.files then
    let fs1 : FileSystem := { fs with files := fs.files.erase file_path }
    let parent_dir := dirname file_path
    if listdir fs1 parent_dir = [] then
      { fs1 with dirs := fs1.dirs.erase parent_dir }
    else fs1
  else fs

/-- C5: after deleting a file, its immediate parent directory is removed iff
the parent is then empty (an entry of any extension blocks removal); every
other directory — in particular an emptied grandparent — survives; and the
only file removed is the deleted one. -/
theorem parent_dir_pruned_iff_empty_one_level
    (fs : FileSystem) (p : List String)
    (hp : p ∈ fs.files) (hnd : fs.dirs.Nodup) (hparent : dirname p ∈ fs.dirs) :
    (dirname p ∈ (delete_file fs p).dirs ↔
      listdir { fs with files := fs.files.erase p } (dirname p) ≠ []) ∧
    (∀ d, d ≠ dirname p → d ∈ fs.dirs → d ∈ (delete_file fs p).dirs) ∧
    (delete_file fs p).files = fs.files.erase p := by
  rw [delete_file, if_pos hp]
  by_cases hl : listdir { fs with files := fs.files.erase p } (dirname p) = []
  · rw [if_pos hl]
    refine ⟨?_, ?_, rfl⟩
    · simp only [hl, ne_eq, not_true_eq_false, iff_false]
      intro hmem
      exact ((List.Nodup.mem_erase_iff hnd).1 hmem).1 rfl
    · intro d hd hdin
      exact (List.Nodup.mem_erase_iff hnd).2 ⟨hd, hdin⟩
  · rw [if_neg hl]
    exact ⟨⟨fun _ => hl, fun _ => hparent⟩, fun d _ hdin => hdin, rfl⟩

/-- Witness for C5: deleting the last file of "/d/sub" prunes "/d/sub" but
leaves the grandparent "/d" in place even though it too is now empty. -/
theorem parent_dir_pruned_iff_empty_one_level_witness :
    ((dirname ["d", "sub", "a.dcm"] ∈
        (delete_file ⟨[["d", "sub", "a.dcm"]], [["d"], ["d", "sub"]]⟩
          ["d", "sub", "a.dcm"]).dirs ↔
      listdir ⟨[["d", "sub", "a.dcm"]].erase ["d", "sub", "a.dcm"],
          [["d"], ["d", "sub"]]⟩ (dirname ["d", "sub", "a.dcm"]) ≠ []) ∧
    (∀ d, d ≠ dirname ["d", "sub", "a.dcm"] → d ∈ [["d"], ["d", "sub"]] →
      d ∈ (delete_file ⟨[["d", "sub", "a.dcm"]], [["d"], ["d", "sub"]]⟩
        ["d", "sub", "a.dcm"]).dirs) ∧
    (delete_file ⟨[["d", "sub", "a.dcm"]], [["d"], ["d", "sub"]]⟩
        ["d", "sub", "a.dcm"]).files =
      [["d", "sub", "a.dcm"]].erase ["d", "sub", "a.dcm"]) :=
  parent_dir_pruned_iff_empty_one_level
    ⟨[["d", "sub", "a.dcm"]], [["d"], ["d", "sub"]]⟩ ["d", "sub", "a.dcm"]
    (by decide) (by decide) (by decide)

/-- The loop of `DicomFileHandler.is_file_stable` (lines 64-75). `sizes t`
is what `os.path.getsize` returns at the t-th poll; `none` means the file is
gone and the call raises. `fuel` bounds the modelled iterations; result
`none` means the loop was still polling after `fuel` iterations. Loop state:
`previous_size` starts at -1, `stable_time` accumulates `check_interval`
while the size is unchanged and resets to zero on a change; the loop exits
with `True` once `stable_time ≥ stable_duration`. -/
def is_file_stable_loop (sizes : Nat → Option Int)
    (check_interval stable_duration : Nat) :
    Nat → Nat → Int → Nat → Option (Except Unit Bool)
  | 0, _, _, _ => none
  | fuel + 1, t, previous_size, stable_time =>
    if stable_time ≥ stable_duration then some (Except.ok true)
    else
      match sizes t with
      | none => some (Except.error ())
      | some current_size =>
        if current_size ≠ previous_size then
          is_file_stable_loop sizes check_interval stable_duration fuel
            (t + 1) current_size 0
        else
          is_file_stable_loop sizes check_interval stable_duration fuel
            (t + 1) previous_size (stable_time + check_interval)

/-- One blocking call of `is_file_stable`, from its initial loop state. -/
def is_file_stable (sizes : Nat → Option Int)
    (check_interval stable_duration fuel : Nat) : Option (Except Unit Bool) :=
  is_file_stable_loop sizes check_interval stable_duration fuel 0 (-1) 0

/-- Shared state of `DicomFileHandler`: the `modified_files` set (Python
`set.add` — `List.insert` is a no-op on a present element) and the ordered
log of files the drain thread has handed to `handle_dicom_file`. -/
structure HandlerState where
  modified_files : List String
  processed : List String
deriving DecidableEq

/-- Embedding of `self.modified_files.add(path)` (line 51). -/
def add_modified (p : String) (st : HandlerState) : HandlerState :=
  { st with modified_files := st.modified_files.insert p }

/-- Embedding of `DicomFileHandler.on_modified` (lines 47-51): for a
non-directory event on a path with the `.dcm` extension, take the lock, run
`is_file_stable` to completion, then add the path to the set. A `getsize`
exception propagates out of the handler — nothing on this path catches it.
A fuel-exhausted stability wait is still blocking and has had no effect. -/
def on_modified (sizes : Nat → Option Int)
    (check_interval stable_duration fuel : Nat)
    (src_path : String) (is_directory : Bool) (st : HandlerState) :
    Except Unit HandlerState :=
  if !is_directory && matches_dcm src_path then
    match is_file_stable sizes check_interval stable_duration fuel with
    | some (Except.ok _) => Except.ok (add_modified src_path st)
    | some (Except.error e) => Except.error e
    | none => Except.ok st
  else Except.ok st

/-- One drain of `process_files_periodically` (lines 55-60): under the lock,
copy the set into `files_to_process` and clear it; then hand each taken path
to `handle_dicom_file` once, in order (appended to the `processed` log). -/
def drain_cycle (st : HandlerState) : HandlerState :=
  { modified_files := [], processed := st.processed ++ st.modified_files }

/-- The atomic events on the shared set: a watchdog modify event for a path
(the handler holds the lock for its whole body, stability wait included) and
a drain by the periodic thread (whose swap holds the lock). -/
inductive FsEvent where
  | modify (path : String)
  | drain
deriving DecidableEq

/-- Run a sequence of atomic events. `sizes p` is the poll-indexed size
trace seen by a stability wait on `p`; an exception escaping `on_modified`
kills the event-dispatch thread, so the run stops with that error. -/
def run_events (sizes : String → Nat → Option Int)
    (check_interval stable_duration fuel : Nat) :
    List FsEvent → HandlerState → Except Unit HandlerState
  | [], st => Except.ok st
  | FsEvent.modify p :: rest, st =>
    match on_modified (sizes p) check_interval stable_duration fuel p false st with
    | Except.ok st1 => run_events sizes check_interval stable_duration fuel rest st1
    | Except.error e => Except.error e
  | FsEvent.drain :: rest, st =>
    run_events sizes check_interval stable_duration fuel rest (drain_cycle st)

/-- C9: a drain atomically takes the entire current set and leaves the
shared set empty; each taken path is handed over exactly once in that cycle
(the set holds no duplicates); and a path added after the swap is in the new
set — preserved for the next cycle, not lost. -/
theorem drain_swap_take_all_process_once
    (st : HandlerState) (q : String) (hnd : st.modified_files.Nodup) :
    (drain_cycle st).modified_files = [] ∧
    (drain_cycle st).processed = st.processed ++ st.modified_files ∧
    (∀ p ∈ st.modified_files, st.modified_files.count p = 1) ∧
    q ∈ (add_modified q (drain_cycle st)).modified_files ∧
    (add_modified q (drain_cycle st)).modified_files.Nodup := by
  refine ⟨rfl, rfl, fun p hp => List.count_eq_one_of_mem hnd hp, ?_, ?_⟩
  · show q ∈ List.insert q []
    exact List.mem_insert_self q []
  · exact List.Nodup.insert List.nodup_nil

/-- Witness for C9 at a concrete two-element set. -/
theorem drain_swap_take_all_process_once_witness :
    (drain_cycle ⟨["a", "b"], []⟩).modified_files = [] ∧
    (drain_cycle ⟨["a", "b"], []⟩).processed = [] ++ ["a", "b"] ∧
    (∀ p ∈ (["a", "b"] : List String), (["a", "b"] : List String).count p = 1) ∧
    "c" ∈ (add_modified "c" (drain_cycle ⟨["a", "b"], []⟩)).modified_files ∧
    (add_modified "c" (drain_cycle ⟨["a", "b"], []⟩)).modified_files.Nodup :=
  drain_swap_take_all_process_once ⟨["a", "b"], []⟩ "c" (by decide)

/-- C2 fails on the code: within a single stabilization episode — the size
trace is the constant 5, the file never changes again — two modify events
with a drain between them enqueue and process the path twice. Each
`on_modified` call restarts its own stability wait and re-adds the path;
only duplicates inside one drain window are absorbed by the set. -/
theorem stabilized_enqueue_twice_counterexample :
    run_events (fun _ _ => some 5) 1 1 4
        [FsEvent.modify "a.dcm", FsEvent.drain, FsEvent.modify "a.dcm", FsEvent.drain]
        ⟨[], []⟩ =
      Except.ok ⟨[], ["a.dcm", "a.dcm"]⟩ ∧
    (["a.dcm", "a.dcm"].count "a.dcm") = 2 := ⟨rfl, rfl⟩

/-- C2 amended: a path is enqueued at most once per drain window — adding it
twice with no drain between is the same as adding it once — and an episode
consisting of a single modify event over a stabilizing size trace enqueues
and processes the path exactly once. Across drains, however, each modify
event of the episode re-enqueues the path (see the counterexample). -/
theorem stabilized_enqueue_once_per_drain_window
    (sizes : String → Nat → Option Int) (ci sd fuel : Nat) (p : String)
    (hstable : is_file_stable (sizes p) ci sd fuel = some (Except.ok true))
    (hdcm : matches_dcm p = true) :
    (∀ st : HandlerState, add_modified p (add_modified p st) = add_modified p st) ∧
    run_events sizes ci sd fuel [FsEvent.modify p, FsEvent.drain] ⟨[], []⟩ =
      Except.ok ⟨[], [p]⟩ ∧
    ([p].count p) = 1 := by
  refine ⟨?_, ?_, by simp⟩
  · intro st
    unfold add_modified
    rw [List.insert_of_mem (List.mem_insert_self p st.modified_files)]
  · have h1 : on_modified (sizes p) ci sd fuel p false ⟨[], []⟩ =
        Except.ok (add_modified p ⟨[], []⟩) := by
      unfold on_modified
      rw [hstable]
      simp [hdcm]
    show (match on_modified (sizes p) ci sd fuel p false ⟨[], []⟩ with
      | Except.ok st1 => run_events sizes ci sd fuel [FsEvent.drain] st1
      | Except.error e => Except.error e) = Except.ok ⟨[], [p]⟩
    rw [h1]
    rfl

/-- Witness for C2's amended statement at a constant size trace. -/
theorem stabilized_enqueue_once_per_drain_window_witness :
    (∀ st : HandlerState,
      add_modified "b.dcm" (add_modified "b.dcm" st) = add_modified "b.dcm" st) ∧
    run_events (fun _ _ => some 5) 1 1 4 [FsEvent.modify "b.dcm", FsEvent.drain]
        ⟨[], []⟩ =
      Except.ok ⟨[], ["b.dcm"]⟩ ∧
    ((["b.dcm"] : List String).count "b.dcm") = 1 :=
  stabilized_enqueue_once_per_drain_window (fun _ _ => some 5) 1 1 4 "b.dcm"
    rfl (by decide)

/-- C8 fails on the code: with the file present at the first poll (size 5)
and deleted before the second, the `getsize` exception escapes
`is_file_stable` and `on_modified`. The path is indeed never enqueued, but
the entry is not dropped silently — the error propagates out of the
stability-detection step and aborts the event-dispatch run. -/
theorem deleted_before_stable_error_escapes_counterexample :
    run_events (fun _ t => if t = 0 then some 5 else none) 1 2 5
        [FsEvent.modify "a.dcm"] ⟨[], []⟩ = Except.error () ∧
    is_file_stable (fun t => if t = 0 then some 5 else none) 1 2 5 =
      some (Except.error ()) := ⟨rfl, rfl⟩

/-- C8 amended: when the watched file disappears before stabilizing (the
stability wait raises), the path is never added to the set — the handler
produces no state at all for a watched path, because the exception escapes
`on_modified` unchanged; a path that never entered the wait (extension
mismatch) leaves the state untouched. -/
theorem deleted_before_stable_never_enqueued
    (sizes : Nat → Option Int) (ci sd fuel : Nat) (p : String) (st : HandlerState)
    (herr : is_file_stable sizes ci sd fuel = some (Except.error ())) :
    (matches_dcm p = true →
      on_modified sizes ci sd fuel p false st = Except.error ()) ∧
    (matches_dcm p = false →
      on_modified sizes ci sd fuel p false st = Except.ok st) := by
  constructor
  · intro hdcm
    unfold on_modified
    rw [herr]
    simp [hdcm]
  · intro hdcm
    unfold on_modified
    simp [hdcm]

/-- Witness for C8's amended statement: the disappearing-file trace from the
counterexample, with a matching path. -/
theorem deleted_before_stable_never_enqueued_witness :
    (matches_dcm "a.dcm" = true →
      on_modified (fun t => if t = 0 then some 5 else none) 1 2 5 "a.dcm" false
          ⟨[], []⟩ =
        Except.error ()) ∧
    (matches_dcm "a.dcm" = false →
      on_modified (fun t => if t = 0 then some 5 else none) 1 2 5 "a.dcm" false
          ⟨[], []⟩ =
        Except.ok ⟨[], []⟩) :=
  deleted_before_stable_never_enqueued (fun t => if t = 0 then some 5 else none)
    1 2 5 "a.dcm" ⟨[], []⟩ rfl

end DicomMonitor
